import Mathlib

/-!
Verification of the AMC servo-drive communications library (libamc).

The definitions below are a shallow embedding of `src/crc.c` and `src/amc.c`.
Machine integers (`uint8_t`, `uint16_t`) are modelled as `Nat` with explicit
`% 256` / `% 65536` at the points where the C code truncates (assignments to
narrower types); `int` values that can only be compared for equality are kept
as `Int` where their signedness matters (the `access_type` parameter and
return values).  Fallible I/O is modelled by passing the transport behaviour
explicitly: the byte stream the device delivers and, where the code's
behaviour depends on how `read` chunks the data, the list of chunk sizes.
-/

/-- One iteration of the shift-register loop in `crchware` (`src/crc.c:29-37`).
The pair is `(data, accum)`, both `uint16_t` in C, hence the `% 65536` at each
assignment.  `accum` is updated from the pre-shift `data`, then `data` is
shifted, exactly as in the C loop body. -/
def crcStep (genpoly : Nat) (p : Nat × Nat) : Nat × Nat :=
  ((p.1 <<< 1) % 65536,
    if (p.1 ^^^ p.2) &&& 0x8000 ≠ 0 then ((p.2 <<< 1) ^^^ genpoly) % 65536
    else (p.2 <<< 1) % 65536)

/-- Run `n` iterations of the `crchware` loop. -/
def crchware_go (genpoly : Nat) : Nat → Nat × Nat → Nat × Nat
  | 0, p => p
  | n + 1, p => crchware_go genpoly n (crcStep genpoly p)

/-- `crchware` from `src/crc.c:23-39`: shift `data` into the top byte
(`data <<= 8`, truncated to 16 bits), then run the 8-iteration loop and
return the accumulator. -/
def crchware (data genpoly accum : Nat) : Nat :=
  (crchware_go genpoly 8 ((data <<< 8) % 65536, accum % 65536)).2

/-- `amc_crc_mktable` from `src/crc.c:51-63`: the 256-entry lookup table,
entry `i` being `crchware i poly 0`.  (The C function can also return NULL on
`malloc` failure; that outcome is modelled at the call site in
`amc_drive_new` by an allocation-success flag.) -/
def amc_crc_mktable (poly : Nat) : List Nat :=
  (List.range 256).map (fun i => crchware i poly 0)

/-- `amc_crc_check_word` from `src/crc.c:71-74`:
`*accumulator = (*accumulator << 8) ^ crc_table[(*accumulator >> 8) ^ data]`.
The arithmetic happens at `int` width and is truncated to 16 bits by the
assignment to the `uint16_t` accumulator, hence the single outer `% 65536`. -/
def amc_crc_check_word (data accum : Nat) (table : List Nat) : Nat :=
  ((accum <<< 8) ^^^ table.getD ((accum >>> 8) ^^^ data) 0) % 65536

/-- Fold a byte sequence through `amc_crc_check_word`, one running
accumulator, as every checksum loop in `src/amc.c` does. -/
def crcFold (table : List Nat) (accum : Nat) (bytes : List Nat) : Nat :=
  bytes.foldl (fun a b => amc_crc_check_word b a table) accum

/-- Big-endian byte pair of a 16-bit value, as produced by `htons` on the
little-endian target followed by writing the two bytes of the field in
memory order (`src/amc.c:106,122`). -/
def be16 (x : Nat) : List Nat :=
  [x / 256 % 256, x % 256]

/-- The sequence-counter update of `amc_cmd_write` (`src/amc.c:66-67`):
`drv->seq_ctr++` on a `uint8_t` (wrap at 256) followed by
`if (drv->seq_ctr >= 16) drv->seq_ctr = 0`. -/
def seqIncrement (s : Nat) : Nat :=
  if (s + 1) % 256 ≥ 16 then 0 else (s + 1) % 256

/-- The control byte as laid out by the packed bit-field
`union amc_control` (`src/amc.h:114-121`) on the little-endian target:
`cmd` in bits 0-1, `seq` in bits 2-5, `rsvd` (always written 0) in bits 6-7. -/
def controlByte (cmdBits seq : Nat) : Nat :=
  cmdBits % 4 + seq % 16 * 4

/-- `struct amc_drive` (`src/amc.h:105-112`).  `crc_table` is an `Option`
because `amc_crc_mktable` returns NULL when its allocation fails. -/
structure AmcDrive where
  seq_ctr : Nat
  crc_table : Option (List Nat)
  address : Nat
  timeout_ms : Nat
deriving Repr, DecidableEq

/-- `amc_drive_new` from `src/amc.c:26-35`.  `serial_ok` models the outcome
of `serial_port_init`, `alloc_ok` the `malloc` inside `amc_crc_mktable`.
Returns the initialized drive (if any) and the C return value: `-1` when the
serial port fails to open, `0` otherwise — the result of `amc_crc_mktable`
is stored without being checked. -/
def amc_drive_new (serial_ok alloc_ok : Bool) (address : Nat) :
    Option AmcDrive × Int :=
  if serial_ok = false then (none, -1)
  else
    (some { seq_ctr := 0,
            crc_table := if alloc_ok then some (amc_crc_mktable 0x1021) else none,
            address := address,
            timeout_ms := 1000 }, 0)

/-- Observable outcome of `amc_cmd_write`: the updated `drv->seq_ctr`, the
byte frame handed to `writev` (`none` when `writev` is never reached), and
the C return value. -/
structure CmdWriteOut where
  seq : Nat
  sent : Option (List Nat)
  ret : Int
deriving Repr, DecidableEq

/-- `amc_cmd_write` from `src/amc.c:59-159`.  `tbl` is `drv->crc_table`,
`payload` the payload bytes (its length standing for the `payload_len`
argument), and `bytes_written` the total that `writev` reports.  The
sequence counter is advanced first; an access type outside {1,2,3} is then
rejected before anything is transmitted.  Otherwise the header
`[sof, addr, control, index, offset, payload_len]` is built (each byte field
truncated to 8 bits), its CRC is computed over those 6 bytes from a zero
accumulator and appended big-endian, and if a payload is present its bytes
are appended followed by their own CRC from a fresh zero accumulator.  The
call returns the frame length only when `writev` wrote exactly that many
bytes, and `-1` otherwise. -/
def amc_cmd_write (seq_ctr address : Nat) (tbl : List Nat)
    (index offset : Nat) (access_type : Int) (response_len : Nat)
    (payload : List Nat) (bytes_written : Nat) : CmdWriteOut :=
  let seq := seqIncrement seq_ctr
  if access_type = 1 ∨ access_type = 2 ∨ access_type = 3 then
    let plw := if access_type = 1 then response_len / 2 % 256
               else payload.length / 2 % 256
    let hdrBytes : List Nat :=
      [0xA5, address % 256, controlByte access_type.toNat seq,
       index % 256, offset % 256, plw]
    let frame :=
      hdrBytes ++ be16 (crcFold tbl 0 hdrBytes) ++
        (if 0 < payload.length then payload ++ be16 (crcFold tbl 0 payload)
         else [])
    { seq := seq, sent := some frame,
      ret := if bytes_written = frame.length then (frame.length : Int) else -1 }
  else { seq := seq, sent := none, ret := -1 }

/-- The bytes handed to `writev` by a call outcome (empty when `writev` was
never reached). -/
def sentBytes (o : CmdWriteOut) : List Nat :=
  o.sent.getD []

/-- Observable outcome of `amc_resp_read`: the C return value, the total
number of bytes consumed from the device, and the extent (in bytes) of what
was stored into the caller's payload buffer — i.e. the index one past the
last buffer byte the payload-read loop wrote. -/
structure RespReadOut where
  ret : Int
  consumed : Nat
  bufWritten : Nat
deriving Repr, DecidableEq

/-- The payload-read loop of `amc_resp_read` (`src/amc.c:269-292`).
`deliveries` lists, per iteration, how many bytes `read` offers; the loop
asks for `btr` (the *remaining payload bytes*, not the remaining buffer
capacity), so an iteration stores `min d btr` bytes into the caller's buffer
at offset `pbr` and only afterwards tests
`payload_bytes_read > payload_max_size`.  Result: `some` final
`payload_bytes_read` on completion, `none` on timeout (deliveries exhausted)
or overflow detection; the second component is the write extent
`payload_bytes_read`, which is also the number of buffer bytes written. -/
def payloadLoop : List Nat → Nat → Nat → Nat → Option Nat × Nat
  | [], _, pbr, _ => (none, pbr)
  | d :: ds, btr, pbr, maxsz =>
    let br := min d btr
    if pbr + br > maxsz then (none, pbr + br)
    else if 0 < btr - br then payloadLoop ds (btr - br) (pbr + br) maxsz
    else (some (pbr + br), pbr + br)

/-- `amc_resp_read` from `src/amc.c:179-347`.  `tbl` is `drv->crc_table`,
`stream` the byte sequence the device delivers, `deliveries` the chunk sizes
of the payload-phase `read` calls, `payload_max_size` the caller's buffer
capacity.  The 8-byte header is reassembled from the stream (fewer than 8
available bytes models the poll timeout); its CRC over the first 6 bytes is
compared with the big-endian trailer; `status1` must equal
`AMC_CMDRESP_COMPLETE` (1) — any other value returns `-1`; a control byte
whose 2-bit `cmd` field lacks bit 0x02 ends decoding with the header byte
count; otherwise the payload loop runs for `payload_len * 2` bytes, then the
2-byte payload CRC trailer is read and checked, and on success the return
value is header bytes plus payload bytes (the trailer is not counted). -/
def amc_resp_read (tbl stream deliveries : List Nat)
    (payload_max_size : Nat) : RespReadOut :=
  if stream.length < 8 then { ret := -1, consumed := stream.length, bufWritten := 0 }
  else
    let hdr := stream.take 8
    let rest := stream.drop 8
    if crcFold tbl 0 (hdr.take 6) ≠ hdr.getD 6 0 * 256 + hdr.getD 7 0 then
      { ret := -1, consumed := 8, bufWritten := 0 }
    else if hdr.getD 3 0 ≠ 1 then
      { ret := -1, consumed := 8, bufWritten := 0 }
    else if hdr.getD 2 0 % 4 &&& 2 = 0 then
      { ret := 8, consumed := 8, bufWritten := 0 }
    else
      match payloadLoop deliveries (hdr.getD 5 0 * 2) 0 payload_max_size with
      | (none, ext) => { ret := -1, consumed := 8 + ext, bufWritten := ext }
      | (some pbr, ext) =>
        if rest.length < pbr + 2 then
          { ret := -1, consumed := 8 + pbr + min (rest.length - pbr) 2,
            bufWritten := ext }
        else if crcFold tbl 0 (rest.take pbr) ≠
            (rest.drop pbr).getD 0 0 * 256 + (rest.drop pbr).getD 1 0 then
          { ret := -1, consumed := 8 + pbr + 2, bufWritten := ext }
        else
          { ret := 8 + pbr, consumed := 8 + pbr + 2, bufWritten := ext }

/-- Helper: the frame a valid-access-type call hands to `writev`, spelled
out: 6 header bytes, big-endian header CRC, then (when a payload is present)
the payload bytes and their big-endian CRC from a fresh zero accumulator. -/
theorem amc_cmd_write_sent_valid (s a : Nat) (tbl : List Nat) (i o : Nat)
    (aty : Int) (rl : Nat) (pl : List Nat) (bw : Nat)
    (h : aty = 1 ∨ aty = 2 ∨ aty = 3) :
    sentBytes (amc_cmd_write s a tbl i o aty rl pl bw) =
      [0xA5, a % 256, controlByte aty.toNat (seqIncrement s), i % 256, o % 256,
        if aty = 1 then rl / 2 % 256 else pl.length / 2 % 256] ++
      be16 (crcFold tbl 0
        [0xA5, a % 256, controlByte aty.toNat (seqIncrement s), i % 256,
          o % 256, if aty = 1 then rl / 2 % 256 else pl.length / 2 % 256]) ++
      (if 0 < pl.length then pl ++ be16 (crcFold tbl 0 pl) else []) := by
  simp only [amc_cmd_write, sentBytes]
  rw [if_pos h]
  rfl

/-- Helper: a CRC accumulator that starts below 2^16 stays below 2^16. -/
theorem crcFold_lt (tbl bytes : List Nat) (accum : Nat)
    (h : accum < 65536) : crcFold tbl accum bytes < 65536 := by
  induction bytes generalizing accum with
  | nil => exact h
  | cons b bs ih =>
    exact ih _ (by unfold amc_crc_check_word; exact Nat.mod_lt _ (by norm_num))

/-- Helper: reassembling the big-endian byte pair of a 16-bit value. -/
theorem be16_value (x : Nat) (h : x < 65536) :
    (be16 x).getD 0 0 * 256 + (be16 x).getD 1 0 = x := by
  simp [be16, List.getD]
  omega

/-- C6: for every 16-bit polynomial the checksum table built by
`amc_crc_mktable` has `table[0] == 0`; for polynomial 0x1021 it has
`table[1] == 0x1021`, and folding the single byte 0x01 into a zero
accumulator with `amc_crc_check_word` yields 0x1021. -/
theorem amc_crc_table_reference_vectors :
    (∀ poly : Nat, (amc_crc_mktable poly).getD 0 0 = 0) ∧
    (amc_crc_mktable 0x1021).getD 1 0 = 0x1021 ∧
    amc_crc_check_word 1 0 (amc_crc_mktable 0x1021) = 0x1021 :=
  ⟨fun poly => by simp [amc_crc_mktable, List.getD, crchware, crchware_go, crcStep],
   by decide, by decide⟩

/-- C10: when the checksum-table allocation inside session initialization
fails, `amc_drive_new` still returns 0 once the serial port opens, leaving
the session with a NULL (`none`) crc_table; the allocation failure is never
reported to the caller. -/
theorem amc_drive_new_ignores_alloc_failure (address : Nat) :
    (amc_drive_new true false address).2 = 0 ∧
    ∃ d : AmcDrive, (amc_drive_new true false address).1 = some d ∧
      d.crc_table = none :=
  ⟨rfl, ⟨_, rfl, rfl⟩⟩

/-- C4: every call to `amc_cmd_write` (valid or not, and regardless of the
transmit outcome, with no rollback) advances the session counter via
`seqIncrement`; from any counter value below 16 that is an advance by one
modulo 16; the counter always lands strictly below 16 (never 16); and from a
fresh session the observable values cycle 1,2,...,15,0,1,... -/
theorem amc_cmd_write_seq_cycle :
    (∀ (s a : Nat) (tbl : List Nat) (i o : Nat) (aty : Int) (rl : Nat)
        (pl : List Nat) (bw : Nat),
        (amc_cmd_write s a tbl i o aty rl pl bw).seq = seqIncrement s) ∧
    (∀ s : Nat, s < 16 → seqIncrement s = (s + 1) % 16) ∧
    (∀ s : Nat, seqIncrement s < 16) ∧
    (∀ n : Nat, seqIncrement^[n] 0 = n % 16) := by
  refine ⟨?_, ?_, ?_, ?_⟩
  · intro s a tbl i o aty rl pl bw
    simp only [amc_cmd_write]
    split <;> rfl
  · intro s hs
    unfold seqIncrement
    split <;> omega
  · intro s
    unfold seqIncrement
    split <;> omega
  · intro n
    induction n with
    | zero => rfl
    | succ n ih =>
      rw [Function.iterate_succ_apply', ih]
      unfold seqIncrement
      split <;> omega

/-- C4 witness: concrete instances of each conjunct. -/
theorem amc_cmd_write_seq_cycle_witness :
    (amc_cmd_write 3 0x3F [] 0 0 0 0 [] 0).seq = seqIncrement 3 ∧
    seqIncrement 15 = 16 % 16 ∧
    seqIncrement 255 < 16 ∧
    seqIncrement^[20] 0 = 20 % 16 :=
  ⟨amc_cmd_write_seq_cycle.1 3 0x3F [] 0 0 0 0 [] 0,
   amc_cmd_write_seq_cycle.2.1 15 (by decide),
   amc_cmd_write_seq_cycle.2.2.1 255,
   amc_cmd_write_seq_cycle.2.2.2 20⟩

/-- C8: a call to `amc_cmd_write` with an access type outside {1, 2, 3}
(read, write, read-write) fails with the invalid-access-type failure return
(-1) and hands no bytes to the transport (`writev` is never reached). -/
theorem amc_cmd_write_rejects_invalid_access_type
    (s a : Nat) (tbl : List Nat) (i o : Nat) (aty : Int) (rl : Nat)
    (pl : List Nat) (bw : Nat) (h : aty ≠ 1 ∧ aty ≠ 2 ∧ aty ≠ 3) :
    (amc_cmd_write s a tbl i o aty rl pl bw).sent = none ∧
    (amc_cmd_write s a tbl i o aty rl pl bw).ret = -1 := by
  simp only [amc_cmd_write]
  rw [if_neg (by tauto)]
  exact ⟨rfl, rfl⟩

/-- C8 witness: access type 0 is rejected with nothing sent. -/
theorem amc_cmd_write_rejects_invalid_access_type_witness :
    (amc_cmd_write 0 0x3F [] 1 0 0 0 [] 0).sent = none ∧
    (amc_cmd_write 0 0x3F [] 1 0 0 0 [] 0).ret = -1 :=
  amc_cmd_write_rejects_invalid_access_type 0 0x3F [] 1 0 0 0 [] 0 (by decide)

/-- C9: a call to `amc_cmd_write` that reaches the transmit step succeeds
(returning the frame byte count) exactly when `writev` wrote the expected
total frame length (header plus payload plus payload checksum when present);
any differing written total yields the write-failure return -1 with no
partial-success interpretation. -/
theorem amc_cmd_write_shortfall (s a : Nat) (tbl : List Nat) (i o : Nat)
    (aty : Int) (rl : Nat) (pl : List Nat) (bw : Nat)
    (h : aty = 1 ∨ aty = 2 ∨ aty = 3) :
    (amc_cmd_write s a tbl i o aty rl pl bw).ret =
      if bw = (sentBytes (amc_cmd_write s a tbl i o aty rl pl bw)).length
      then ((sentBytes (amc_cmd_write s a tbl i o aty rl pl bw)).length : Int)
      else -1 := by
  rcases h with rfl | rfl | rfl <;> simp [amc_cmd_write, sentBytes]

/-- C9 witness: a short write (0 of the 8 frame bytes) returns -1, while a
full write of all 8 bytes returns 8. -/
theorem amc_cmd_write_shortfall_witness :
    (amc_cmd_write 0 0x3F [] 1 0 1 0 [] 0).ret = -1 ∧
    (amc_cmd_write 0 0x3F [] 1 0 1 0 [] 8).ret = 8 := by
  constructor
  · rw [amc_cmd_write_shortfall 0 0x3F [] 1 0 1 0 [] 0 (by decide)]
    decide
  · rw [amc_cmd_write_shortfall 0 0x3F [] 1 0 1 0 [] 8 (by decide)]
    decide

/-- C5: the header checksum and the payload checksum of a built command use
independent, freshly zero-initialized accumulators: the 8 header bytes of
the frame (including the header checksum) are identical for any two payloads
of the same length, and the payload checksum appended after the payload is
`crcFold tbl 0 payload` — folded from a fresh zero accumulator, never
chained from the header accumulator. -/
theorem amc_cmd_write_independent_checksums :
    (∀ (s a : Nat) (tbl : List Nat) (i o : Nat) (aty : Int) (rl : Nat)
        (p1 p2 : List Nat) (bw1 bw2 : Nat),
        (aty = 1 ∨ aty = 2 ∨ aty = 3) → p1.length = p2.length →
        (sentBytes (amc_cmd_write s a tbl i o aty rl p1 bw1)).take 8 =
          (sentBytes (amc_cmd_write s a tbl i o aty rl p2 bw2)).take 8) ∧
    (∀ (s a : Nat) (tbl : List Nat) (i o : Nat) (aty : Int) (rl : Nat)
        (pl : List Nat) (bw : Nat),
        (aty = 1 ∨ aty = 2 ∨ aty = 3) → 0 < pl.length →
        (sentBytes (amc_cmd_write s a tbl i o aty rl pl bw)).drop
            (8 + pl.length) = be16 (crcFold tbl 0 pl)) := by
  constructor
  · intro s a tbl i o aty rl p1 p2 bw1 bw2 h hlen
    rw [amc_cmd_write_sent_valid s a tbl i o aty rl p1 bw1 h,
        amc_cmd_write_sent_valid s a tbl i o aty rl p2 bw2 h,
        List.take_left' (by simp [be16]), List.take_left' (by simp [be16]),
        hlen]
  · intro s a tbl i o aty rl pl bw h hpl
    rw [amc_cmd_write_sent_valid s a tbl i o aty rl pl bw h, if_pos hpl,
        ← List.append_assoc]
    exact List.drop_left' (by simp [be16]; omega)

/-- C5 witness: two different 2-byte payloads give identical header bytes,
and the trailing payload checksum is the fresh-accumulator fold. -/
theorem amc_cmd_write_independent_checksums_witness :
    (sentBytes (amc_cmd_write 0 0x3F [] 2 0 2 0 [1, 2] 0)).take 8 =
      (sentBytes (amc_cmd_write 0 0x3F [] 2 0 2 0 [3, 4] 0)).take 8 ∧
    (sentBytes (amc_cmd_write 0 0x3F [] 2 0 2 0 [1, 2] 0)).drop 10 =
      be16 (crcFold [] 0 [1, 2]) :=
  ⟨amc_cmd_write_independent_checksums.1 0 0x3F [] 2 0 2 0 [1, 2] [3, 4] 0 0
      (by decide) (by decide),
   amc_cmd_write_independent_checksums.2 0 0x3F [] 2 0 2 0 [1, 2] 0
      (by decide) (by decide)⟩

/-- C7: the header's payload-length field is set in 16-bit words —
`response_len / 2` for access type read, `payload_len / 2` for write and
read-write (whenever the word count fits the 8-bit field); in particular a
read command with `response_len = 256` yields a payload-length byte of 128
and a control byte whose 2-bit access-type field equals 1. -/
theorem amc_cmd_write_payload_len_words :
    (∀ (s a : Nat) (tbl : List Nat) (i o rl : Nat) (pl : List Nat) (bw : Nat),
        rl / 2 < 256 →
        (sentBytes (amc_cmd_write s a tbl i o 1 rl pl bw)).getD 5 0 = rl / 2) ∧
    (∀ (s a : Nat) (tbl : List Nat) (i o : Nat) (aty : Int) (rl : Nat)
        (pl : List Nat) (bw : Nat),
        (aty = 2 ∨ aty = 3) → pl.length / 2 < 256 →
        (sentBytes (amc_cmd_write s a tbl i o aty rl pl bw)).getD 5 0 =
          pl.length / 2) ∧
    (∀ (s a : Nat) (tbl : List Nat) (bw : Nat),
        (sentBytes (amc_cmd_write s a tbl 0x0B 0x00 1 256 [] bw)).getD 5 0
            = 128 ∧
        (sentBytes (amc_cmd_write s a tbl 0x0B 0x00 1 256 [] bw)).getD 2 0 % 4
            = 1) := by
  have key : ∀ (s a : Nat) (tbl : List Nat) (i o : Nat) (aty : Int) (rl : Nat)
      (pl : List Nat) (bw : Nat), (aty = 1 ∨ aty = 2 ∨ aty = 3) →
      (sentBytes (amc_cmd_write s a tbl i o aty rl pl bw)).getD 5 0 =
        (if aty = 1 then rl / 2 % 256 else pl.length / 2 % 256) ∧
      (sentBytes (amc_cmd_write s a tbl i o aty rl pl bw)).getD 2 0 =
        controlByte aty.toNat (seqIncrement s) := by
    intro s a tbl i o aty rl pl bw h
    rw [amc_cmd_write_sent_valid s a tbl i o aty rl pl bw h,
        List.append_assoc]
    constructor
    · rw [List.getD_append _ _ _ 5 (by simp)]
      rfl
    · rw [List.getD_append _ _ _ 2 (by simp)]
      rfl
  refine ⟨?_, ?_, ?_⟩
  · intro s a tbl i o rl pl bw hlt
    rw [(key s a tbl i o 1 rl pl bw (by norm_num)).1, if_pos rfl,
        Nat.mod_eq_of_lt hlt]
  · intro s a tbl i o aty rl pl bw h hlt
    rw [(key s a tbl i o aty rl pl bw (by tauto)).1,
        if_neg (by rcases h with rfl | rfl <;> norm_num),
        Nat.mod_eq_of_lt hlt]
  · intro s a tbl bw
    constructor
    · rw [(key s a tbl 0x0B 0x00 1 256 [] bw (by norm_num)).1, if_pos rfl]
    · rw [(key s a tbl 0x0B 0x00 1 256 [] bw (by norm_num)).2]
      unfold controlByte
      omega

/-- C7 witness: the concrete read command of the claim. -/
theorem amc_cmd_write_payload_len_words_witness :
    (sentBytes (amc_cmd_write 0 0x3F [] 0x0B 0x00 1 256 [] 0)).getD 5 0
        = 128 ∧
    (sentBytes (amc_cmd_write 0 0x3F [] 0x0B 0x00 1 256 [] 0)).getD 2 0 % 4
        = 1 ∧
    (sentBytes (amc_cmd_write 0 0x3F [] 0 0 2 0 [1, 2, 3, 4] 0)).getD 5 0
        = 2 :=
  ⟨(amc_cmd_write_payload_len_words.2.2 0 0x3F [] 0).1,
   (amc_cmd_write_payload_len_words.2.2 0 0x3F [] 0).2,
   amc_cmd_write_payload_len_words.2.1 0 0x3F [] 0 0 2 0 [1, 2, 3, 4] 0
      (by norm_num) (by decide)⟩

/-- C2 counterexample: a response whose `status1` is "incomplete" (2) and a
response whose `status1` is the unknown value 9 — both with valid header
checksums and a header that claims a payload — produce exactly the same
observable failure (-1, header consumed, nothing more read): the failures
for different non-complete statuses are not distinct. -/
theorem amc_resp_read_incomplete_unknown_same_failure :
    amc_resp_read (amc_crc_mktable 0x1021)
        [0xA5, 0x3F, 0x00, 2, 0, 3, 149, 61] [] 0 =
      amc_resp_read (amc_crc_mktable 0x1021)
        [0xA5, 0x3F, 0x00, 9, 0, 3, 101, 204] [] 0 ∧
    amc_resp_read (amc_crc_mktable 0x1021)
        [0xA5, 0x3F, 0x00, 2, 0, 3, 149, 61] [] 0 =
      { ret := -1, consumed := 8, bufWritten := 0 } := by
  exact ⟨by decide, by decide⟩

/-- C2 (amended): once the received header passes the checksum check,
`amc_resp_read` succeeds only when `status1` equals the "complete" code (1):
any other `status1` value — named or unknown — yields the same uniform
failure return of -1, and decoding stops with only the 8 header bytes
consumed and no payload bytes read, even if the header claims a payload. -/
theorem amc_resp_read_status_gate :
    (∀ (tbl stream del : List Nat) (maxsz : Nat),
        (stream.take 8).getD 3 0 ≠ 1 →
        (amc_resp_read tbl stream del maxsz).ret = -1) ∧
    (∀ (tbl stream del : List Nat) (maxsz : Nat),
        8 ≤ stream.length →
        crcFold tbl 0 ((stream.take 8).take 6) =
          (stream.take 8).getD 6 0 * 256 + (stream.take 8).getD 7 0 →
        (stream.take 8).getD 3 0 ≠ 1 →
        amc_resp_read tbl stream del maxsz =
          { ret := -1, consumed := 8, bufWritten := 0 }) := by
  constructor
  · intro tbl stream del maxsz hst
    simp only [amc_resp_read]
    split_ifs <;> simp_all
  · intro tbl stream del maxsz h8 hcrc hst
    simp only [amc_resp_read]
    rw [if_neg (Nat.not_lt.mpr h8), if_neg (not_not_intro hcrc), if_pos hst]

/-- C2 witness: the concrete "incomplete" response of the counterexample,
through both conjuncts of the amended theorem. -/
theorem amc_resp_read_status_gate_witness :
    (amc_resp_read (amc_crc_mktable 0x1021)
        [0xA5, 0x3F, 0x00, 2, 0, 3, 149, 61] [] 0).ret = -1 ∧
    amc_resp_read (amc_crc_mktable 0x1021)
        [0xA5, 0x3F, 0x00, 2, 0, 3, 149, 61] [] 0 =
      { ret := -1, consumed := 8, bufWritten := 0 } :=
  ⟨amc_resp_read_status_gate.1 (amc_crc_mktable 0x1021)
      [0xA5, 0x3F, 0x00, 2, 0, 3, 149, 61] [] 0 (by decide),
   amc_resp_read_status_gate.2 (amc_crc_mktable 0x1021)
      [0xA5, 0x3F, 0x00, 2, 0, 3, 149, 61] [] 0 (by decide) (by decide)
      (by decide)⟩

/-- C3: for a successfully decoded response, if the control byte's 2-bit
access-type field lacks the data bit (0x02), `amc_resp_read` returns exactly
the 8 header bytes read without reading a payload; otherwise, on full
success it returns header bytes plus payload bytes
(`8 + payload_len * 2`), the 2-byte payload checksum trailer being read but
not counted in the return value. -/
theorem amc_resp_read_return_value :
    (∀ (tbl stream del : List Nat) (maxsz : Nat),
        8 ≤ stream.length →
        crcFold tbl 0 ((stream.take 8).take 6) =
          (stream.take 8).getD 6 0 * 256 + (stream.take 8).getD 7 0 →
        (stream.take 8).getD 3 0 = 1 →
        (stream.take 8).getD 2 0 % 4 &&& 2 = 0 →
        amc_resp_read tbl stream del maxsz =
          { ret := 8, consumed := 8, bufWritten := 0 }) ∧
    (∀ (tbl hdr payload extra : List Nat) (maxsz : Nat),
        hdr.length = 8 →
        crcFold tbl 0 (hdr.take 6) = hdr.getD 6 0 * 256 + hdr.getD 7 0 →
        hdr.getD 3 0 = 1 →
        hdr.getD 2 0 % 4 &&& 2 ≠ 0 →
        hdr.getD 5 0 * 2 = payload.length →
        payload.length ≤ maxsz →
        amc_resp_read tbl
            (hdr ++ payload ++ be16 (crcFold tbl 0 payload) ++ extra)
            [payload.length] maxsz =
          { ret := 8 + (payload.length : Int),
            consumed := 8 + payload.length + 2,
            bufWritten := payload.length }) := by
  constructor
  · intro tbl stream del maxsz h8 hcrc hst hctl
    simp only [amc_resp_read]
    rw [if_neg (Nat.not_lt.mpr h8), if_neg (not_not_intro hcrc),
        if_neg (not_not_intro hst), if_pos hctl]
  · intro tbl hdr payload extra maxsz h8 hcrc hst hctl hplen hle
    have hassoc :
        hdr ++ payload ++ be16 (crcFold tbl 0 payload) ++ extra =
          hdr ++ (payload ++ (be16 (crcFold tbl 0 payload) ++ extra)) := by
      simp [List.append_assoc]
    rw [hassoc]
    simp only [amc_resp_read]
    rw [List.take_left' h8, List.drop_left' h8,
        if_neg (by rw [List.length_append, h8]; omega),
        if_neg (not_not_intro hcrc), if_neg (not_not_intro hst),
        if_neg hctl, hplen]
    have hloop : payloadLoop [payload.length] payload.length 0 maxsz =
        (some payload.length, payload.length) := by
      simp only [payloadLoop, Nat.min_self, Nat.zero_add, Nat.sub_self,
        Nat.lt_irrefl, gt_iff_lt, if_false]
      rw [if_neg (Nat.not_lt.mpr hle)]
    simp only [hloop]
    have hrest : ¬((payload ++ (be16 (crcFold tbl 0 payload) ++ extra)).length
        < payload.length + 2) := by
      simp [be16]
    rw [if_neg hrest, List.take_left' rfl, List.drop_left' rfl,
        List.getD_append _ _ _ 0 (by simp [be16]),
        List.getD_append _ _ _ 1 (by simp [be16]),
        if_neg (not_not_intro
          (be16_value _ (crcFold_lt tbl payload 0 (by norm_num))).symm)]

/-- C3 witness: a concrete non-data-bearing response returns 8, and a
concrete 1-word-payload response returns 10 (header 8 + payload 2, the CRC
trailer read but not counted). -/
theorem amc_resp_read_return_value_witness :
    amc_resp_read (amc_crc_mktable 0x1021)
        [0xA5, 0x3F, 0x01, 1, 0, 0, 138, 186] [] 0 =
      { ret := 8, consumed := 8, bufWritten := 0 } ∧
    amc_resp_read (amc_crc_mktable 0x1021)
        ([0xA5, 0x3F, 0x02, 1, 0, 1, 1, 71] ++ [0xAB, 0xCD] ++
          be16 (crcFold (amc_crc_mktable 0x1021) 0 [0xAB, 0xCD]) ++ [])
        [2] 2 =
      { ret := 10, consumed := 12, bufWritten := 2 } := by
  constructor
  · exact amc_resp_read_return_value.1 (amc_crc_mktable 0x1021)
      [0xA5, 0x3F, 0x01, 1, 0, 0, 138, 186] [] 0
      (by decide) (by decide) (by decide) (by decide)
  · have h := amc_resp_read_return_value.2 (amc_crc_mktable 0x1021)
      [0xA5, 0x3F, 0x02, 1, 0, 1, 1, 71] [0xAB, 0xCD] [] 2
      (by decide) (by decide) (by decide) (by decide) (by decide) (by decide)
    simpa using h

/-- C1: the buffer-overflow condition is detected and reported as a failure
(-1), but not before the `read` that overruns the buffer has happened: with
a checksum-valid complete response claiming 2 payload words (4 bytes), a
caller buffer capacity of 2 bytes, and the transport delivering the 4
payload bytes in one read, `amc_resp_read` returns -1 yet the payload-read
loop has stored 4 bytes into the 2-byte buffer — 2 bytes past its end —
because the loop requests the remaining payload length instead of the
remaining buffer capacity and only checks the total afterwards
(`src/amc.c:281-291`). -/
theorem amc_resp_read_overflow_writes_past_buffer :
    amc_resp_read (amc_crc_mktable 0x1021)
        ([0xA5, 0x3F, 0x02, 1, 0, 2, 49, 36] ++ [1, 2, 3, 4]) [4] 2 =
      { ret := -1, consumed := 12, bufWritten := 4 } ∧
    2 < 4 :=
  ⟨by decide, by decide⟩
